import Mathlib

/-!
Verification development for the telltale diagnostic engine.

The diagnosis algorithm of `telltale/core/diagnostic.py` is implemented as a
Cypher query executed against the graph store; the definitions below embed
that query's row pipeline over an in-memory snapshot of the graph.  The
truth-table engine of `telltale/core/truth_table.py` is embedded as plain
functions.  Sensor values and thresholds (Python floats in the source) are
modelled as rationals; no claim under study depends on float rounding.
-/

namespace Telltale

/-- EvidenceStrength from `telltale/core/models.py`. -/
inductive Strength where
  | confirms
  | rules_out
  | suggests
  | suggests_against
  | inconclusive
deriving DecidableEq

/-- ComparisonOperator from `telltale/core/models.py` (`=, <, >, <=, >=, in`). -/
inductive Operator where
  | eq
  | lt
  | gt
  | le
  | ge
  | inOp
deriving DecidableEq

/-- Kind of the source node of an EVIDENCE_FOR edge. -/
inductive SourceKind where
  | observation
  | sensor_reading
deriving DecidableEq

/-- An EVIDENCE_FOR edge (source Observation or SensorReading, target FailureMode)
with the properties read by the diagnose query. -/
structure EvidenceEdge where
  source : String
  target : String
  when_true_strength : Option Strength
  when_false_strength : Option Strength
  operator : Option Operator := none
  threshold : Option ℚ := none
deriving DecidableEq

/-- Read snapshot of the causal/evidence graph: failure-mode node names, CAUSES
edges (failure mode, observation), and EVIDENCE_FOR edges split by the kind of
their source node, mirroring the two OPTIONAL MATCH clauses of the query. -/
structure Graph where
  failureModes : List String
  causes : List (String × String)
  obsEvidence : List EvidenceEdge
  sensorEvidence : List EvidenceEdge
deriving DecidableEq

/-- Sensor assignment: map from sensor name to numeric value (a Python dict,
modelled as an association list with distinct keys). -/
abbrev Readings := List (String × ℚ)

/-- `$sensor_readings[name]` : map lookup, null when the key is absent. -/
def readingOf (rd : Readings) (name : String) : Option ℚ :=
  match rd.find? (fun kv => kv.1 = name) with
  | some kv => some kv.2
  | none => none

/-- One element of `all_evidence` in the diagnose query: the per-edge map built
by the two collect clauses (name, strength = when_true_strength,
when_false_strength, evidence_type, operator, threshold). -/
structure Row where
  name : String
  kind : SourceKind
  strength : Option Strength
  when_false_strength : Option Strength
  operator : Option Operator
  threshold : Option ℚ
deriving DecidableEq

/-- Candidate failure modes: `MATCH (fm:FailureMode) WHERE EXISTS
{(fm)-[:CAUSES]->(o:Observation) WHERE o.name IN $observations}`. -/
def candidates (g : Graph) (observations : List String) : List String :=
  g.failureModes.filter (fun fm =>
    g.causes.any (fun c => decide (c.1 = fm ∧ c.2 ∈ observations)))

/-- `observation_evidence` rows of a failure mode: EVIDENCE_FOR edges whose
Observation source is in `$observations`.  (When the OPTIONAL MATCH finds
nothing, the query collects a single all-null map which the later
`WHERE evidence.name IS NOT NULL` filter removes; the net effect is the empty
list produced here.) -/
def observation_evidence (g : Graph) (observations : List String) (fm : String) : List Row :=
  (g.obsEvidence.filter (fun e => decide (e.target = fm ∧ e.source ∈ observations))).map
    (fun e => ⟨e.source, .observation, e.when_true_strength, none, none, none⟩)

/-- `sensor_evidence` rows of a failure mode: EVIDENCE_FOR edges whose
SensorReading source is in `$sensor_names` (the keys of the assignment). -/
def sensor_evidence (g : Graph) (rd : Readings) (fm : String) : List Row :=
  (g.sensorEvidence.filter
      (fun e => decide (e.target = fm ∧ e.source ∈ rd.map Prod.fst))).map
    (fun e => ⟨e.source, .sensor_reading, e.when_true_strength,
               e.when_false_strength, e.operator, e.threshold⟩)

/-- `all_evidence` for one failure mode (observation evidence then sensor
evidence, rows with a null name already removed). -/
def all_evidence (g : Graph) (observations : List String) (rd : Readings)
    (fm : String) : List Row :=
  observation_evidence g observations fm ++ sensor_evidence g rd fm

/-- `effective_strength` CASE of the query: sensor rows contribute
`when_true_strength` only when the operator is `<`, `>` or `=` and the
comparison holds; every other sensor case (operator `<=`, `>=`, `in`, null
threshold, absent reading) falls to the ELSE null branch.  Observation rows
contribute their strength unconditionally. -/
def effective_strength (rd : Readings) (row : Row) : Option Strength :=
  match row.kind with
  | .observation => row.strength
  | .sensor_reading =>
    match row.operator, readingOf rd row.name, row.threshold with
    | some .lt, some v, some t => if v < t then row.strength else none
    | some .gt, some v, some t => if t < v then row.strength else none
    | some .eq, some v, some t => if v = t then row.strength else none
    | _, _, _ => none

/-- `contradicting_flag` CASE of the query: a sensor row is flagged
contradicting when the operator is `<`, `>` or `=` and the comparison fails;
all other cases (including observation rows) fall to null. -/
def contradicting_flag (rd : Readings) (row : Row) : Bool :=
  match row.kind with
  | .observation => false
  | .sensor_reading =>
    match row.operator, readingOf rd row.name, row.threshold with
    | some .lt, some v, some t => decide (t ≤ v)
    | some .gt, some v, some t => decide (v ≤ t)
    | some .eq, some v, some t => decide (v ≠ t)
    | _, _, _ => false

/-- `when_false_strength_value` CASE of the query: `when_false_strength` under
exactly the contradicting conditions, null otherwise. -/
def when_false_strength_value (rd : Readings) (row : Row) : Option Strength :=
  if contradicting_flag rd row then row.when_false_strength else none

/-- `supporting_evidence := collect(evidence_name)` — the names of all
evidence rows of the failure mode, whatever their polarity. -/
def supporting_evidence_of (g : Graph) (observations : List String) (rd : Readings)
    (fm : String) : List String :=
  (all_evidence g observations rd fm).map Row.name

/-- `strengths := collect(effective_strength)` (Cypher collect skips nulls). -/
def strengths_of (g : Graph) (observations : List String) (rd : Readings)
    (fm : String) : List Strength :=
  (all_evidence g observations rd fm).filterMap (effective_strength rd)

/-- `contradicting_evidence`: names of the rows flagged contradicting. -/
def contradicting_evidence_of (g : Graph) (observations : List String) (rd : Readings)
    (fm : String) : List String :=
  ((all_evidence g observations rd fm).filter (contradicting_flag rd)).map Row.name

/-- `false_strengths := collect(when_false_strength_value)` (nulls skipped). -/
def false_strengths_of (g : Graph) (observations : List String) (rd : Readings)
    (fm : String) : List Strength :=
  (all_evidence g observations rd fm).filterMap (when_false_strength_value rd)

/-- `is_ruled_out := 'rules_out' IN false_strengths`. -/
def is_ruled_out_of (g : Graph) (observations : List String) (rd : Readings)
    (fm : String) : Bool :=
  decide (Strength.rules_out ∈ false_strengths_of g observations rd fm)

/-- The supporting-strength precedence chain of the confidence CASE
(`confirms`, `suggests`, `suggests_against`, `rules_out`, else
`inconclusive`). -/
def supportingConfidence (ss : List Strength) : Strength :=
  if Strength.confirms ∈ ss then .confirms
  else if Strength.suggests ∈ ss then .suggests
  else if Strength.suggests_against ∈ ss then .suggests_against
  else if Strength.rules_out ∈ ss then .rules_out
  else .inconclusive

/-- The full confidence CASE: ruled-out first, then
contradiction-forces-inconclusive, then the supporting precedence chain. -/
def confidence_of (g : Graph) (observations : List String) (rd : Readings)
    (fm : String) : Strength :=
  if is_ruled_out_of g observations rd fm then .rules_out
  else if contradicting_evidence_of g observations rd fm ≠ [] then .inconclusive
  else supportingConfidence (strengths_of g observations rd fm)

/-- DiagnosticResult from `telltale/core/models.py` (explanation omitted:
diagnose is embedded with `include_explanations=False`). -/
structure DiagnosticResult where
  failure_mode : String
  confidence : Strength
  supporting_evidence : List String
  contradicting_evidence : List String
deriving DecidableEq

/-- Sort key of the final ORDER BY CASE (confidence `rules_out` never reaches
the ORDER BY because of the preceding WHERE filter; it is given the largest
rank to keep the function total). -/
def confidenceRank : Strength → Nat
  | .confirms => 0
  | .suggests => 1
  | .suggests_against => 2
  | .inconclusive => 3
  | .rules_out => 4

/-- Ordering relation of the final ORDER BY. -/
def resultLE (a b : DiagnosticResult) : Prop :=
  confidenceRank a.confidence ≤ confidenceRank b.confidence

instance : DecidableRel resultLE :=
  fun a b => inferInstanceAs (Decidable (confidenceRank a.confidence ≤ confidenceRank b.confidence))

/-- The grouping step `WITH fm, collect(...)`: a failure mode reaches the
grouping only if at least one evidence row survived the
`WHERE evidence.name IS NOT NULL` filter; otherwise the failure mode has no
rows left and disappears from the result. -/
def buildResult (g : Graph) (observations : List String) (rd : Readings)
    (fm : String) : Option DiagnosticResult :=
  if (all_evidence g observations rd fm).isEmpty then none
  else some
    { failure_mode := fm
      confidence := confidence_of g observations rd fm
      supporting_evidence := supporting_evidence_of g observations rd fm
      contradicting_evidence := contradicting_evidence_of g observations rd fm }

/-- DiagnosticEngine.diagnose: candidate filter, per-candidate aggregation,
`WHERE confidence <> 'rules_out'`, then the ORDER BY on the confidence rank. -/
def diagnose (g : Graph) (observations : List String) (rd : Readings) :
    List DiagnosticResult :=
  List.insertionSort resultLE
    (((candidates g observations).filterMap (buildResult g observations rd)).filter
      (fun r => decide (r.confidence ≠ .rules_out)))

/-- The rational 3.5 (written as its normalized fraction 7/2 so that concrete
computations reduce in the kernel). -/
def ratThreePointFive : ℚ := ⟨7, 2, by decide, by decide⟩

/-- Concrete graph of the spec's first scenario: FailureMode "Dead Battery"
causes Observation "No Music"; SensorReading "battery_voltage" is evidence for
it with operator `<`, threshold 4.0, when_true `confirms`, when_false
`rules_out`. -/
def deadBatteryGraph : Graph where
  failureModes := ["Dead Battery"]
  causes := [("Dead Battery", "No Music")]
  obsEvidence := []
  sensorEvidence :=
    [{ source := "battery_voltage", target := "Dead Battery",
       when_true_strength := some .confirms,
       when_false_strength := some .rules_out,
       operator := some .lt, threshold := some 4 }]

/-- Membership in diagnose's output: the result was built from a candidate
failure mode and survived the `confidence <> 'rules_out'` filter. -/
lemma mem_diagnose {g : Graph} {observations : List String} {rd : Readings}
    {r : DiagnosticResult} :
    r ∈ diagnose g observations rd ↔
      (∃ fm ∈ candidates g observations, buildResult g observations rd fm = some r) ∧
        r.confidence ≠ .rules_out := by
  unfold diagnose
  rw [List.mem_insertionSort, List.mem_filter, List.mem_filterMap]
  simp

/-- The fields of a result built for a failure mode. -/
lemma buildResult_eq_some {g : Graph} {observations : List String} {rd : Readings}
    {fm : String} {r : DiagnosticResult}
    (h : buildResult g observations rd fm = some r) :
    r.failure_mode = fm ∧ r.confidence = confidence_of g observations rd fm ∧
      r.supporting_evidence = supporting_evidence_of g observations rd fm ∧
      r.contradicting_evidence = contradicting_evidence_of g observations rd fm := by
  unfold buildResult at h
  split at h
  · exact absurd h (by simp)
  · simp only [Option.some.injEq] at h
    subst h
    exact ⟨rfl, rfl, rfl, rfl⟩

/-- C1: Rule-out dominance.  For every failure mode and every input, if any
contradicting contribution to the failure mode has strength `rules_out`
(i.e. `rules_out` occurs among its collected `when_false_strength` values),
the failure mode is absent from diagnose's output, whatever supporting
contributions it also has. -/
theorem rule_out_dominance (g : Graph) (observations : List String) (rd : Readings)
    (fm : String)
    (h : Strength.rules_out ∈ false_strengths_of g observations rd fm) :
    ∀ r ∈ diagnose g observations rd, r.failure_mode ≠ fm := by
  intro r hr hname
  obtain ⟨⟨fm', _, hbuild⟩, hconf⟩ := mem_diagnose.mp hr
  obtain ⟨hfm, hcf, -, -⟩ := buildResult_eq_some hbuild
  rw [hfm] at hname
  subst hname
  exact hconf (by simp [hcf, confidence_of, is_ruled_out_of, h])

/-- C1 witness: with a good battery voltage of 12, the `<` comparison fails and
contributes `rules_out`, so "Dead Battery" is absent from the output. -/
theorem rule_out_dominance_witness :
    Strength.rules_out ∈
        false_strengths_of deadBatteryGraph ["No Music"] [("battery_voltage", 12)]
          "Dead Battery" ∧
      ∀ r ∈ diagnose deadBatteryGraph ["No Music"] [("battery_voltage", 12)],
        r.failure_mode ≠ "Dead Battery" :=
  ⟨by decide, rule_out_dominance _ _ _ _ (by decide)⟩

/-- Graph with one failure mode carrying both a supporting `confirms`
observation contribution and a contradicting `suggests_against` sensor
contribution (for sensor value 5 against threshold 4 under `<`). -/
def contradictionGraph : Graph where
  failureModes := ["F"]
  causes := [("F", "O")]
  obsEvidence :=
    [{ source := "O", target := "F",
       when_true_strength := some .confirms,
       when_false_strength := some .inconclusive }]
  sensorEvidence :=
    [{ source := "S", target := "F",
       when_true_strength := some .confirms,
       when_false_strength := some .suggests_against,
       operator := some .lt, threshold := some 4 }]

/-- C2: Contradiction forces inconclusive.  Every failure mode in diagnose's
output that has a contradicting contribution of any strength other than
`rules_out` is reported with confidence `inconclusive`, even when it also has
supporting `confirms` contributions. -/
theorem contradiction_forces_inconclusive (g : Graph) (observations : List String)
    (rd : Readings) (fm : String) (r : DiagnosticResult)
    (hr : r ∈ diagnose g observations rd) (hname : r.failure_mode = fm)
    (hx : ∃ row ∈ all_evidence g observations rd fm,
        contradicting_flag rd row = true ∧
          row.when_false_strength ≠ some Strength.rules_out) :
    r.confidence = .inconclusive := by
  obtain ⟨⟨fm', _, hbuild⟩, hconf⟩ := mem_diagnose.mp hr
  obtain ⟨hfm, hcf, -, -⟩ := buildResult_eq_some hbuild
  have hfmeq : fm' = fm := by rw [← hfm]; exact hname
  rw [← hfmeq] at hx
  obtain ⟨row, hrow, hflag, -⟩ := hx
  have hne : contradicting_evidence_of g observations rd fm' ≠ [] := by
    unfold contradicting_evidence_of
    intro hnil
    rw [List.map_eq_nil_iff, List.filter_eq_nil_iff] at hnil
    exact absurd hflag (by simpa using hnil row hrow)
  by_cases hro : is_ruled_out_of g observations rd fm' = true
  · exact absurd (by simp [hcf, confidence_of, hro]) hconf
  · simp [hcf, confidence_of, hro, hne]

/-- C2 witness: in `contradictionGraph` with sensor value 5, "F" is reported
with confidence `inconclusive` despite its supporting `confirms` contribution. -/
theorem contradiction_forces_inconclusive_witness :
    ({ failure_mode := "F", confidence := .inconclusive,
       supporting_evidence := ["O", "S"],
       contradicting_evidence := ["S"] } : DiagnosticResult) ∈
        diagnose contradictionGraph ["O"] [("S", 5)] ∧
      (∃ row ∈ all_evidence contradictionGraph ["O"] [("S", 5)] "F",
          contradicting_flag [("S", 5)] row = true ∧
            row.when_false_strength ≠ some Strength.rules_out) ∧
      ({ failure_mode := "F", confidence := .inconclusive,
         supporting_evidence := ["O", "S"],
         contradicting_evidence := ["S"] } : DiagnosticResult).confidence =
        .inconclusive :=
  ⟨by decide, by decide,
    contradiction_forces_inconclusive contradictionGraph ["O"] [("S", 5)] "F" _
      (by decide) rfl (by decide)⟩

/-- Graph whose only evidence is a supporting observation contribution of
strength `rules_out`. -/
def supportingRulesOutGraph : Graph where
  failureModes := ["F"]
  causes := [("F", "O")]
  obsEvidence :=
    [{ source := "O", target := "F",
       when_true_strength := some .rules_out,
       when_false_strength := some .inconclusive }]
  sensorEvidence := []

/-- C3 counterexample: "F" has only supporting contributions, none of
`confirms`, `suggests`, `suggests_against` is present, yet the failure mode is
not reported with confidence `inconclusive` — it is dropped from the output
altogether, because the supporting `rules_out` strength reaches the final
precedence branch and the result is then removed by the
`confidence <> 'rules_out'` filter. -/
theorem precedence_order_counterexample :
    "F" ∈ candidates supportingRulesOutGraph ["O"] ∧
      contradicting_evidence_of supportingRulesOutGraph ["O"] [] "F" = [] ∧
      strengths_of supportingRulesOutGraph ["O"] [] "F" = [Strength.rules_out] ∧
      diagnose supportingRulesOutGraph ["O"] [] = [] := by decide

/-- C3 amended: for a candidate failure mode with at least one evidence row and
no contradicting contribution, the reported confidence is the first strength
found among its supporting contributions in the order `confirms`, `suggests`,
`suggests_against`, `rules_out`, defaulting to `inconclusive`; the failure mode
appears in the output exactly when that value is not `rules_out` (a supporting
`rules_out` drops it, as does having no evidence row at all). -/
theorem precedence_order_amended (g : Graph) (observations : List String)
    (rd : Readings) (fm : String)
    (hc : fm ∈ candidates g observations)
    (hrows : all_evidence g observations rd fm ≠ [])
    (hnc : contradicting_evidence_of g observations rd fm = []) :
    (supportingConfidence (strengths_of g observations rd fm) = .rules_out →
        ∀ r ∈ diagnose g observations rd, r.failure_mode ≠ fm) ∧
      (supportingConfidence (strengths_of g observations rd fm) ≠ .rules_out →
        ∃ r ∈ diagnose g observations rd,
          r.failure_mode = fm ∧
            r.confidence = supportingConfidence (strengths_of g observations rd fm)) := by
  have hall : ∀ row ∈ all_evidence g observations rd fm,
      contradicting_flag rd row = false := by
    rw [contradicting_evidence_of, List.map_eq_nil_iff, List.filter_eq_nil_iff] at hnc
    intro row hrow
    simpa using hnc row hrow
  have hfs : false_strengths_of g observations rd fm = [] := by
    rw [false_strengths_of, List.filterMap_eq_nil_iff]
    intro row hrow
    simp [when_false_strength_value, hall row hrow]
  have hro : is_ruled_out_of g observations rd fm = false := by
    simp [is_ruled_out_of, hfs]
  have hconf : confidence_of g observations rd fm =
      supportingConfidence (strengths_of g observations rd fm) := by
    simp [confidence_of, hro, hnc]
  have hbuild : buildResult g observations rd fm =
      some { failure_mode := fm
             confidence := confidence_of g observations rd fm
             supporting_evidence := supporting_evidence_of g observations rd fm
             contradicting_evidence := contradicting_evidence_of g observations rd fm } := by
    rw [buildResult, if_neg]
    simpa [List.isEmpty_iff] using hrows
  constructor
  · intro hs r hr hname
    obtain ⟨⟨fm', -, hbuild'⟩, hconf'⟩ := mem_diagnose.mp hr
    obtain ⟨hfm, hcf, -, -⟩ := buildResult_eq_some hbuild'
    have hfmeq : fm' = fm := by rw [← hfm]; exact hname
    rw [hfmeq] at hcf
    exact hconf' (by rw [hcf, hconf, hs])
  · intro hs
    refine ⟨_, mem_diagnose.mpr ⟨⟨fm, hc, hbuild⟩, ?_⟩, rfl, ?_⟩
    · simpa [hconf] using hs
    · simpa using hconf

/-- C3 witness: in the dead-battery graph with voltage 3.5 every contribution
is supporting and `confirms` is present, so "Dead Battery" appears with
confidence `confirms`. -/
theorem precedence_order_amended_witness :
    "Dead Battery" ∈ candidates deadBatteryGraph ["No Music"] ∧
      all_evidence deadBatteryGraph ["No Music"] [("battery_voltage", ratThreePointFive)]
          "Dead Battery" ≠ [] ∧
      contradicting_evidence_of deadBatteryGraph ["No Music"]
          [("battery_voltage", ratThreePointFive)] "Dead Battery" = [] ∧
      ((supportingConfidence
            (strengths_of deadBatteryGraph ["No Music"]
              [("battery_voltage", ratThreePointFive)] "Dead Battery") = .rules_out →
          ∀ r ∈ diagnose deadBatteryGraph ["No Music"]
              [("battery_voltage", ratThreePointFive)],
            r.failure_mode ≠ "Dead Battery") ∧
        (supportingConfidence
            (strengths_of deadBatteryGraph ["No Music"]
              [("battery_voltage", ratThreePointFive)] "Dead Battery") ≠ .rules_out →
          ∃ r ∈ diagnose deadBatteryGraph ["No Music"]
              [("battery_voltage", ratThreePointFive)],
            r.failure_mode = "Dead Battery" ∧
              r.confidence = supportingConfidence
                (strengths_of deadBatteryGraph ["No Music"]
                  [("battery_voltage", ratThreePointFive)] "Dead Battery"))) :=
  ⟨by decide, by decide, by decide,
    precedence_order_amended _ _ _ _ (by decide) (by decide) (by decide)⟩

/-- Like the dead-battery graph but with operator `<=`, which the diagnose
query does not handle. -/
def leOperatorGraph : Graph where
  failureModes := ["Dead Battery"]
  causes := [("Dead Battery", "No Music")]
  obsEvidence := []
  sensorEvidence :=
    [{ source := "battery_voltage", target := "Dead Battery",
       when_true_strength := some .confirms,
       when_false_strength := some .rules_out,
       operator := some .le, threshold := some 4 }]

/-- C4: evaluating the code at the failing input.  With operator `<=` and
value 3.5 against threshold 4.0 the comparison holds, yet the edge contributes
no strength and no contradiction — all operator CASE branches of the query
cover only `<`, `>` and `=`, every other operator falls to null — and no
"unsupported operator" error is raised: the failure mode is returned as
`inconclusive` with the sensor silently inert. -/
theorem unsupported_operator_silently_inert :
    ratThreePointFive ≤ 4 ∧
      strengths_of leOperatorGraph ["No Music"]
          [("battery_voltage", ratThreePointFive)] "Dead Battery" = [] ∧
      contradicting_evidence_of leOperatorGraph ["No Music"]
          [("battery_voltage", ratThreePointFive)] "Dead Battery" = [] ∧
      diagnose leOperatorGraph ["No Music"] [("battery_voltage", ratThreePointFive)] =
        [{ failure_mode := "Dead Battery", confidence := .inconclusive,
           supporting_evidence := ["battery_voltage"],
           contradicting_evidence := [] }] := by decide

/-- Graph of the spec's second scenario: two failure modes cause "No Sound";
the battery sensor confirms one, a `suggests`-level observation supports the
other. -/
def twoFaultGraph : Graph where
  failureModes := ["Dead Battery", "Speaker Broken"]
  causes := [("Dead Battery", "No Sound"), ("Speaker Broken", "No Sound")]
  obsEvidence :=
    [{ source := "Buzzing", target := "Speaker Broken",
       when_true_strength := some .suggests,
       when_false_strength := some .inconclusive }]
  sensorEvidence :=
    [{ source := "battery_voltage", target := "Dead Battery",
       when_true_strength := some .confirms,
       when_false_strength := some .rules_out,
       operator := some .lt, threshold := some 4 }]

/-- C5: the spec's concrete scenarios.  Voltage 3.5 yields exactly one result,
"Dead Battery" confirmed with supporting evidence ["battery_voltage"]; voltage
12 yields the empty list; and with two failure modes causing "No Sound", the
`confirms` result is ordered before the `suggests` result. -/
theorem concrete_scenarios :
    diagnose deadBatteryGraph ["No Music"] [("battery_voltage", ratThreePointFive)] =
        [{ failure_mode := "Dead Battery", confidence := .confirms,
           supporting_evidence := ["battery_voltage"],
           contradicting_evidence := [] }] ∧
      diagnose deadBatteryGraph ["No Music"] [("battery_voltage", 12)] = [] ∧
      diagnose twoFaultGraph ["No Sound", "Buzzing"] [("battery_voltage", 3)] =
        [{ failure_mode := "Dead Battery", confidence := .confirms,
           supporting_evidence := ["battery_voltage"],
           contradicting_evidence := [] },
         { failure_mode := "Speaker Broken", confidence := .suggests,
           supporting_evidence := ["Buzzing"],
           contradicting_evidence := [] }] := by decide

/-- C6 counterexample: the contradicting contributor "S" appears in the
supporting-evidence list as well, because `supporting_evidence` collects the
names of all evidence rows regardless of polarity. -/
theorem evidence_polarity_counterexample :
    ∃ r ∈ diagnose contradictionGraph ["O"] [("S", 5)],
      "S" ∈ r.contradicting_evidence ∧ "S" ∈ r.supporting_evidence := by decide

/-- C6 amended: for every result, `contradicting_evidence` contains exactly the
names of the rows flagged contradicting, while `supporting_evidence` contains
the names of all evidence rows considered for the failure mode — supporting
and contradicting alike — so a contradicting contributor's name appears in
both lists. -/
theorem evidence_lists_amended (g : Graph) (observations : List String)
    (rd : Readings) (r : DiagnosticResult) (hr : r ∈ diagnose g observations rd) :
    r.supporting_evidence =
        (all_evidence g observations rd r.failure_mode).map Row.name ∧
      r.contradicting_evidence =
        ((all_evidence g observations rd r.failure_mode).filter
            (contradicting_flag rd)).map Row.name := by
  obtain ⟨⟨fm', -, hbuild⟩, -⟩ := mem_diagnose.mp hr
  obtain ⟨hfm, -, hsup, hcon⟩ := buildResult_eq_some hbuild
  rw [hfm]
  exact ⟨hsup, hcon⟩

/-- C6 witness: the amended description evaluated on the contradiction graph. -/
theorem evidence_lists_amended_witness :
    ({ failure_mode := "F", confidence := .inconclusive,
       supporting_evidence := ["O", "S"],
       contradicting_evidence := ["S"] } : DiagnosticResult) ∈
        diagnose contradictionGraph ["O"] [("S", 5)] ∧
      (({ failure_mode := "F", confidence := .inconclusive,
          supporting_evidence := ["O", "S"],
          contradicting_evidence := ["S"] } : DiagnosticResult).supporting_evidence =
          (all_evidence contradictionGraph ["O"] [("S", 5)] "F").map Row.name ∧
        ({ failure_mode := "F", confidence := .inconclusive,
           supporting_evidence := ["O", "S"],
           contradicting_evidence := ["S"] } : DiagnosticResult).contradicting_evidence =
          ((all_evidence contradictionGraph ["O"] [("S", 5)] "F").filter
              (contradicting_flag [("S", 5)])).map Row.name) :=
  ⟨by decide, evidence_lists_amended _ _ _ _ (by decide)⟩

/-- A test-case input: the `{'observations': ..., 'sensor_values': ...}` dict
of `telltale/core/truth_table.py`. -/
structure CaseInput where
  observations : List String
  sensor_values : Readings
deriving DecidableEq

/-- A registered expectation (`TestCase` of the truth-table module): inputs
plus the expected `(failure_mode, confidence)` entries. -/
structure RegisteredCase where
  observations : List String
  sensor_values : Readings
  expected : List (String × Strength)
deriving DecidableEq

/-- Observation-set equality used by the registry lookup:
`set(expected) == set(actual)`. -/
def setEq (a b : List String) : Bool :=
  decide (∀ x ∈ a, x ∈ b) && decide (∀ x ∈ b, x ∈ a)

/-- Sensor-map equality used by the registry lookup: Python dict equality,
i.e. the same keys bound to the same values (keys of an assignment are
distinct). -/
def dictEq (a b : Readings) : Bool :=
  decide (∀ kv ∈ a, readingOf b kv.1 = some kv.2) &&
    decide (∀ kv ∈ b, readingOf a kv.1 = some kv.2)

/-- The registry-lookup condition of `run_test_case`: exact match on the input
pair. -/
def matchesCase (e : RegisteredCase) (observations : List String) (sv : Readings) :
    Bool :=
  setEq e.observations observations && dictEq e.sensor_values sv

/-- The registry scan of `run_test_case`: the loop keeps overwriting
`expected_results` with each matching entry's expectations, so the last
matching entry wins; `none` means no entry matched
(`has_registered_expectations` stays false). -/
def findExpected (registry : List RegisteredCase) (observations : List String)
    (sv : Readings) : Option (List (String × Strength)) :=
  registry.foldl
    (fun acc e => if matchesCase e observations sv then some e.expected else acc) none

/-- `unexpected`: actual entries absent from the expected list. -/
def unexpectedOf (actual expected : List (String × Strength)) :
    List (String × Strength) :=
  actual.filter (fun a => decide (a ∉ expected))

/-- `missing`: expected entries absent from the actual list. -/
def missingOf (actual expected : List (String × Strength)) :
    List (String × Strength) :=
  expected.filter (fun e => decide (e ∉ actual))

/-- TruthTableResult of the truth-table module (the `inputs` dict split into
its two fields). -/
structure TruthTableResult where
  input_observations : List String
  input_sensor_values : Readings
  diagnosed_failure_modes : List (String × Strength)
  expected_failure_modes : List (String × Strength)
  unexpected_results : List (String × Strength)
  missing_results : List (String × Strength)
  has_surprise : Bool
deriving DecidableEq

/-- The actual diagnoses converted to comparable `(failure_mode, confidence)`
form. -/
def actual_results (g : Graph) (observations : List String) (sv : Readings) :
    List (String × Strength) :=
  (diagnose g observations sv).map (fun d => (d.failure_mode, d.confidence))

/-- TruthTable.run_test_case: diagnose, look up the registry, diff, and set
`has_surprise = has_registered_expectations and (len(unexpected) > 0 or
len(missing) > 0)`. -/
def run_test_case (g : Graph) (registry : List RegisteredCase) (c : CaseInput) :
    TruthTableResult :=
  let actual := actual_results g c.observations c.sensor_values
  match findExpected registry c.observations c.sensor_values with
  | none => ⟨c.observations, c.sensor_values, actual, [], [], [], false⟩
  | some expected =>
      ⟨c.observations, c.sensor_values, actual, expected,
        unexpectedOf actual expected, missingOf actual expected,
        decide (unexpectedOf actual expected ≠ [] ∨ missingOf actual expected ≠ [])⟩

/-- A registry scan returning `none` means no entry matched. -/
lemma findExpected_eq_none_iff (registry : List RegisteredCase)
    (observations : List String) (sv : Readings) :
    findExpected registry observations sv = none ↔
      ∀ e ∈ registry, matchesCase e observations sv = false := by
  suffices h : ∀ acc : Option (List (String × Strength)),
      registry.foldl
          (fun acc e => if matchesCase e observations sv then some e.expected else acc)
          acc = none ↔
        acc = none ∧ ∀ e ∈ registry, matchesCase e observations sv = false by
    simpa [findExpected] using h none
  induction registry with
  | nil => simp
  | cons e rest ih =>
    intro acc
    rw [List.foldl_cons, ih]
    by_cases hm : matchesCase e observations sv = true
    · simp [hm]
    · simp only [Bool.not_eq_true] at hm
      simp [hm]

/-- A registry scan returning expectations means some entry matched with
exactly those expectations. -/
lemma findExpected_eq_some (registry : List RegisteredCase)
    (observations : List String) (sv : Readings)
    (exp : List (String × Strength))
    (h : findExpected registry observations sv = some exp) :
    ∃ e ∈ registry, matchesCase e observations sv = true ∧ e.expected = exp := by
  suffices haux : ∀ acc : Option (List (String × Strength)),
      registry.foldl
          (fun acc e => if matchesCase e observations sv then some e.expected else acc)
          acc = some exp →
        (∃ e ∈ registry, matchesCase e observations sv = true ∧ e.expected = exp) ∨
          acc = some exp by
    rcases haux none h with h' | h'
    · exact h'
    · exact absurd h' (by simp)
  clear h
  induction registry with
  | nil => intro acc h; exact Or.inr h
  | cons e rest ih =>
    intro acc h
    rw [List.foldl_cons] at h
    rcases ih _ h with ⟨e', he', hm, hexp⟩ | h'
    · exact Or.inl ⟨e', List.mem_cons_of_mem _ he', hm, hexp⟩
    · by_cases hm : matchesCase e observations sv = true
      · rw [if_pos hm] at h'
        simp only [Option.some.injEq] at h'
        exact Or.inl ⟨e, List.mem_cons_self _ _, hm, h'⟩
      · rw [if_neg hm] at h'
        exact Or.inr h'

/-- C7: Registry matching and surprise flag.  `run_test_case` reports a
surprise exactly when some registered expectation matches the case input (set
equality on observations, exact map equality on sensor values) and the diff
against the matched entry — the one the registry scan retains — is non-empty;
in particular, when no entry matches, `has_surprise` is false whatever the
actual diagnoses are, and no error is raised (the function is total). -/
theorem registry_surprise_iff (g : Graph) (registry : List RegisteredCase)
    (c : CaseInput) :
    (run_test_case g registry c).has_surprise = true ↔
      ∃ e ∈ registry, matchesCase e c.observations c.sensor_values = true ∧
        findExpected registry c.observations c.sensor_values = some e.expected ∧
        (unexpectedOf (actual_results g c.observations c.sensor_values)
              e.expected ≠ [] ∨
          missingOf (actual_results g c.observations c.sensor_values)
              e.expected ≠ []) := by
  unfold run_test_case
  cases hfe : findExpected registry c.observations c.sensor_values with
  | none =>
    simp only []
    constructor
    · intro h; cases h
    · rintro ⟨e, -, -, hsome, -⟩
      exact Option.noConfusion hsome
  | some expected =>
    obtain ⟨e, he, hm, hexp⟩ := findExpected_eq_some _ _ _ _ hfe
    simp only [decide_eq_true_eq]
    constructor
    · intro h
      exact ⟨e, he, hm, by rw [hexp], by rw [hexp]; exact h⟩
    · rintro ⟨e', -, -, hsome, hd⟩
      simp only [Option.some.injEq] at hsome
      rw [hsome]
      exact hd

/-- TruthTable.run_truth_table, embedded in the exception monad: the loop
`for test_case in test_cases: results.append(self.run_test_case(test_case))`
contains no exception handler, so the first case whose execution raises
propagates out and no result list is produced.  The per-case runner (which
calls diagnose and may raise) is a parameter. -/
def run_truth_table (run_case : CaseInput → Except String TruthTableResult) :
    List CaseInput → Except String (List TruthTableResult)
  | [] => .ok []
  | c :: cs =>
    match run_case c with
    | .error e => .error e
    | .ok r =>
      match run_truth_table run_case cs with
      | .error e => .error e
      | .ok rs => .ok (r :: rs)

/-- A trivial result used by the concrete runner below. -/
def emptyTTResult (c : CaseInput) : TruthTableResult :=
  ⟨c.observations, c.sensor_values, [], [], [], [], false⟩

/-- A per-case runner whose diagnosis raises on the observation "boom" and
succeeds on every other input. -/
def raisingRunner : CaseInput → Except String TruthTableResult :=
  fun c =>
    if c.observations = ["boom"] then .error "diagnose raised"
    else .ok (emptyTTResult c)

/-- C9: evaluating the code at the failing input.  The second case of the
batch runs fine on its own, but because the first case's diagnosis raises,
`run_truth_table` propagates the exception: the batch aborts and no result is
returned for any case, instead of recording the failure against the first
case and continuing. -/
theorem batch_aborts_on_case_failure :
    raisingRunner ⟨["boom"], []⟩ = .error "diagnose raised" ∧
      run_truth_table raisingRunner [⟨[], []⟩] = .ok [emptyTTResult ⟨[], []⟩] ∧
      run_truth_table raisingRunner [⟨["boom"], []⟩, ⟨[], []⟩] =
        .error "diagnose raised" :=
  ⟨rfl, rfl, rfl⟩

/-- itertools.combinations: all subsequences of length `r`, first element
chosen in list order. -/
def combinations {α : Type} : List α → Nat → List (List α)
  | _, 0 => [[]]
  | [], _ + 1 => []
  | x :: xs, r + 1 =>
    (combinations xs r).map (fun c => x :: c) ++ combinations xs (r + 1)

lemma length_combinations {α : Type} :
    ∀ (l : List α) (r : Nat), (combinations l r).length = Nat.choose l.length r := by
  intro l
  induction l with
  | nil =>
    intro r
    cases r with
    | zero => simp [combinations]
    | succ r => simp [combinations]
  | cons x xs ih =>
    intro r
    cases r with
    | zero => simp [combinations]
    | succ r =>
      simp [combinations, ih, Nat.choose_succ_succ]

lemma mem_combinations_sublist {α : Type} :
    ∀ (l : List α) (r : Nat) (c : List α), c ∈ combinations l r → c.Sublist l := by
  intro l
  induction l with
  | nil =>
    intro r c hc
    cases r with
    | zero =>
      simp [combinations] at hc
      simp [hc]
    | succ r => simp [combinations] at hc
  | cons x xs ih =>
    intro r c hc
    cases r with
    | zero =>
      simp [combinations] at hc
      simp [hc]
    | succ r =>
      rw [combinations, List.mem_append, List.mem_map] at hc
      rcases hc with ⟨d, hd, rfl⟩ | hc
      · exact (ih r d hd).cons₂ x
      · exact (ih (r + 1) c hc).cons x

lemma length_of_mem_combinations {α : Type} :
    ∀ (l : List α) (r : Nat) (c : List α), c ∈ combinations l r → c.length = r := by
  intro l
  induction l with
  | nil =>
    intro r c hc
    cases r with
    | zero => simp [combinations] at hc; simp [hc]
    | succ r => simp [combinations] at hc
  | cons x xs ih =>
    intro r c hc
    cases r with
    | zero => simp [combinations] at hc; simp [hc]
    | succ r =>
      rw [combinations, List.mem_append, List.mem_map] at hc
      rcases hc with ⟨d, hd, rfl⟩ | hc
      · simp [ih r d hd]
      · exact ih (r + 1) c hc

lemma nodup_combinations {α : Type} [DecidableEq α] :
    ∀ (l : List α), l.Nodup → ∀ (r : Nat), (combinations l r).Nodup := by
  intro l
  induction l with
  | nil =>
    intro _ r
    cases r with
    | zero => simp [combinations]
    | succ r => simp [combinations]
  | cons x xs ih =>
    intro hl r
    rw [List.nodup_cons] at hl
    cases r with
    | zero => simp [combinations]
    | succ r =>
      rw [combinations]
      refine List.Nodup.append ?_ (ih hl.2 (r + 1)) ?_
      · exact (ih hl.2 r).map (fun a b hab => by
          simpa using congrArg List.tail hab)
      · intro c hc hc'
        rw [List.mem_map] at hc
        obtain ⟨d, -, rfl⟩ := hc
        exact hl.1 ((mem_combinations_sublist xs (r + 1) _ hc').subset
          (List.mem_cons_self x d))

/-- The observation power set built by `generate_test_cases`: the empty
combination, then all combinations of sizes 1 to `len(vary_observations)`. -/
def observation_combinations (vary : List String) : List (List String) :=
  [] :: ((List.range vary.length).map (fun r => combinations vary (r + 1))).flatten

lemma list_sum_range (f : Nat → Nat) :
    ∀ n : Nat, ((List.range n).map f).sum = ∑ i ∈ Finset.range n, f i := by
  intro n
  induction n with
  | zero => simp
  | succ n ih => rw [List.range_succ, Finset.sum_range_succ]; simp [ih]

lemma length_observation_combinations (vary : List String) :
    (observation_combinations vary).length = 2 ^ vary.length := by
  rw [observation_combinations, List.length_cons, List.length_flatten,
    List.map_map]
  have hmap : (List.map (List.length ∘ fun r => combinations vary (r + 1))
      (List.range vary.length)).sum =
      ∑ i ∈ Finset.range vary.length, Nat.choose vary.length (i + 1) := by
    rw [show (List.length ∘ fun r => combinations vary (r + 1)) =
        fun r => Nat.choose vary.length (r + 1) from funext fun r => by
          simp [length_combinations]]
    exact list_sum_range _ _
  rw [hmap, ← Nat.sum_range_choose vary.length, Finset.sum_range_succ']
  simp [Nat.add_comm]

lemma nodup_observation_combinations {vary : List String} (h : vary.Nodup) :
    (observation_combinations vary).Nodup := by
  rw [observation_combinations, List.nodup_cons]
  constructor
  · intro hmem
    rw [List.mem_flatten] at hmem
    obtain ⟨L, hL, hnil⟩ := hmem
    rw [List.mem_map] at hL
    obtain ⟨r, -, rfl⟩ := hL
    have := length_of_mem_combinations vary (r + 1) [] hnil
    simp at this
  · rw [List.nodup_flatten]
    constructor
    · intro L hL
      rw [List.mem_map] at hL
      obtain ⟨r, -, rfl⟩ := hL
      exact nodup_combinations vary h (r + 1)
    · rw [List.pairwise_map]
      refine (List.pairwise_lt_range vary.length).imp ?_
      intro a b hab c hca hcb
      have h1 := length_of_mem_combinations vary (a + 1) c hca
      have h2 := length_of_mem_combinations vary (b + 1) c hcb
      omega

/-- Per-sensor scan data of TruthTable.scan_graph: unit plus the distinct
thresholds and operators discovered on EVIDENCE_FOR edges. -/
structure SensorInfo where
  unit : Option String := none
  thresholds : List ℚ
  operators : List Operator
deriving DecidableEq

/-- TruthTable state relevant to test-case generation: the scanned observation
universe and the scanned sensor map. -/
structure TruthTableState where
  observations : List String
  sensor_readings : List (String × SensorInfo)
deriving DecidableEq

/-- Per-sensor test values of `generate_test_cases`: for every known threshold,
just below, just above and exactly at the threshold, plus an "absent" marker.
(The Python literal 0.1 is modelled as the exact rational 1/10.) -/
def sensor_test_values (info : SensorInfo) : List (Option ℚ) :=
  (info.thresholds.map
      (fun t => [some (t - 1 / 10), some (t + 1 / 10), some t])).flatten ++ [none]

/-- Python dict assignment `d[k] = v` on the association-list model. -/
def dict_set (m : Readings) (k : String) (v : ℚ) : Readings :=
  if m.any (fun kv => kv.1 = k) then
    m.map (fun kv => if kv.1 = k then (k, v) else kv)
  else m ++ [(k, v)]

/-- The sensor-combination loop of `generate_test_cases` (sensors not known to
the scanned state are skipped; the "absent" marker leaves the key out). -/
def sensor_value_combinations (st : TruthTableState) (varySensors : List String) :
    List Readings :=
  varySensors.foldl
    (fun acc name =>
      match st.sensor_readings.find? (fun kv => kv.1 = name) with
      | none => acc
      | some kv =>
        (acc.map (fun existing =>
          (sensor_test_values kv.2).map (fun v? =>
            match v? with
            | none => existing
            | some v => dict_set existing name v))).flatten)
    [[]]

/-- TruthTable.generate_test_cases.  When both `vary_observations` and
`fixed_observations` are empty, the full scanned observation universe is
varied instead. -/
def generate_test_cases (st : TruthTableState) (varyObs : List String)
    (fixedObs : List (String × Bool)) (varySensors : List String)
    (fixedSensors : Readings) : List CaseInput :=
  let vary := if varyObs.isEmpty && fixedObs.isEmpty then st.observations else varyObs
  let senCombos := sensor_value_combinations st varySensors
  ((observation_combinations vary).map (fun combo =>
    let full_obs := fixedObs.foldl
      (fun fo ob => if ob.2 && decide (ob.1 ∉ fo) then fo ++ [ob.1] else fo) combo
    senCombos.map (fun sc =>
      CaseInput.mk full_obs
        (fixedSensors.foldl (fun fs kv => dict_set fs kv.1 kv.2) sc)))).flatten

lemma flatten_map_singleton {α β : Type} (f : α → β) (l : List α) :
    (l.map (fun x => [f x])).flatten = l.map f := by
  induction l with
  | nil => rfl
  | cons x xs ih => simp [ih]

/-- With nonempty `varyObs`, no fixed observations and no sensors, the
generated cases are exactly the observation combinations. -/
lemma generate_test_cases_no_sensors (st : TruthTableState) (varyObs : List String)
    (h : varyObs ≠ []) :
    generate_test_cases st varyObs [] [] [] =
      (observation_combinations varyObs).map (fun c => CaseInput.mk c []) := by
  have hne : varyObs.isEmpty = false := List.isEmpty_eq_false.mpr h
  rw [generate_test_cases]
  simp only [hne, Bool.false_and, if_neg Bool.false_ne_true]
  rw [sensor_value_combinations]
  simp only [List.foldl_nil]
  exact flatten_map_singleton _ _

/-- C8 counterexample: with an empty `varyObs` (k = 0) and no fixed
observations, the claim predicts 2^0 = 1 observation combination, but when
the scanned observation universe is non-empty the code varies the whole
universe instead, producing more cases. -/
theorem power_set_counterexample :
    (generate_test_cases ⟨["A"], []⟩ [] [] [] []).length ≠
      2 ^ ([] : List String).length := by decide

/-- C8 amended: for a nonempty list of k distinct observation names and no
fixed observations, `generate_test_cases` produces exactly 2^k observation
combinations, including the empty combination, all pairwise distinct; with
k = 0 and no fixed observations the code falls back to varying the whole
scanned observation universe. -/
theorem power_set_amended (st : TruthTableState) (varyObs : List String)
    (h : varyObs ≠ []) :
    (generate_test_cases st varyObs [] [] []).length = 2 ^ varyObs.length ∧
      [] ∈ (generate_test_cases st varyObs [] [] []).map CaseInput.observations ∧
      (varyObs.Nodup →
        ((generate_test_cases st varyObs [] [] []).map CaseInput.observations).Nodup) := by
  rw [generate_test_cases_no_sensors st varyObs h]
  refine ⟨?_, ?_, ?_⟩
  · rw [List.length_map]
    exact length_observation_combinations varyObs
  · rw [List.map_map,
      show (CaseInput.observations ∘ fun c => CaseInput.mk c []) =
        (fun c : List String => c) from rfl, List.map_id']
    exact List.mem_cons_self _ _
  · intro hnodup
    rw [List.map_map,
      show (CaseInput.observations ∘ fun c => CaseInput.mk c []) =
        (fun c : List String => c) from rfl, List.map_id']
    exact nodup_observation_combinations hnodup

/-- C8 witness: a single varied observation yields 2 combinations. -/
theorem power_set_amended_witness :
    (["A"] : List String) ≠ [] ∧
      ((generate_test_cases ⟨[], []⟩ ["A"] [] [] []).length = 2 ^ (["A"] : List String).length ∧
        [] ∈ (generate_test_cases ⟨[], []⟩ ["A"] [] [] []).map CaseInput.observations ∧
        ((["A"] : List String).Nodup →
          ((generate_test_cases ⟨[], []⟩ ["A"] [] [] []).map CaseInput.observations).Nodup)) :=
  ⟨by decide, power_set_amended ⟨[], []⟩ ["A"] (by decide)⟩

/-- One row of the recommendation query's second MATCH: an EVIDENCE_FOR edge
from an Observation or SensorReading to a candidate failure mode. -/
structure QualifiedEvidence where
  kind : SourceKind
  name : String
  operator : Option Operator
  threshold : Option ℚ
  strength_if_true : Option Strength
  failure_mode : String
deriving DecidableEq

/-- The `(ev, e, fm)` rows feeding the recommendation grouping: evidence edges
targeting a candidate failure mode whose source name is not among the current
observations. -/
def recommendation_rows (g : Graph) (observations : List String) :
    List QualifiedEvidence :=
  ((g.obsEvidence.map (fun e =>
      QualifiedEvidence.mk .observation e.source e.operator e.threshold
        e.when_true_strength e.target)) ++
    (g.sensorEvidence.map (fun e =>
      QualifiedEvidence.mk .sensor_reading e.source e.operator e.threshold
        e.when_true_strength e.target))).filter
    (fun q => decide (q.failure_mode ∈ candidates g observations ∧
      q.name ∉ observations))

/-- TestRecommendation from `telltale/core/models.py`. -/
structure TestRecommendation where
  name : String
  type : SourceKind
  operator : Option Operator
  threshold : Option ℚ
  strength_if_true : Option Strength
  would_help_with : List String
deriving DecidableEq

/-- The implicit grouping key of the recommendation query's `WITH` clause: all
non-aggregated columns, i.e. the source node together with its operator,
threshold and when_true_strength — not the source name alone. -/
structure GroupKey where
  kind : SourceKind
  name : String
  operator : Option Operator
  threshold : Option ℚ
  strength_if_true : Option Strength
deriving DecidableEq

def groupKey (q : QualifiedEvidence) : GroupKey :=
  ⟨q.kind, q.name, q.operator, q.threshold, q.strength_if_true⟩

def keyOfRecommendation (r : TestRecommendation) : GroupKey :=
  ⟨r.type, r.name, r.operator, r.threshold, r.strength_if_true⟩

/-- The record built for one group: `would_help_with` is
`collect(DISTINCT fm.name)` over the group's rows. -/
def recommendation_for (rows : List QualifiedEvidence) (k : GroupKey) :
    TestRecommendation :=
  ⟨k.name, k.kind, k.operator, k.threshold, k.strength_if_true,
    ((rows.filter (fun q => decide (groupKey q = k))).map
      QualifiedEvidence.failure_mode).dedup⟩

/-- Ordering of the final `ORDER BY size(would_help_with) DESC`. -/
def recommendLE (a b : TestRecommendation) : Prop :=
  b.would_help_with.length ≤ a.would_help_with.length

instance : DecidableRel recommendLE :=
  fun a b =>
    inferInstanceAs (Decidable (b.would_help_with.length ≤ a.would_help_with.length))

instance : IsTotal TestRecommendation recommendLE :=
  ⟨fun a b => Nat.le_total b.would_help_with.length a.would_help_with.length⟩

instance : IsTrans TestRecommendation recommendLE :=
  ⟨fun _ _ _ hab hbc => le_trans hbc hab⟩

/-- DiagnosticEngine.get_test_recommendations: group the qualifying evidence
rows by their full key, build one record per group, and sort by descending
`would_help_with` size. -/
def get_test_recommendations (g : Graph) (observations : List String) :
    List TestRecommendation :=
  List.insertionSort recommendLE
    (((recommendation_rows g observations).map groupKey).dedup.map
      (recommendation_for (recommendation_rows g observations)))

/-- Graph where the single sensor "S" has two evidence edges with different
operators, thresholds and strengths, to two candidate failure modes. -/
def splitSensorGraph : Graph where
  failureModes := ["F1", "F2"]
  causes := [("F1", "O"), ("F2", "O")]
  obsEvidence := []
  sensorEvidence :=
    [{ source := "S", target := "F1",
       when_true_strength := some .confirms,
       when_false_strength := some .rules_out,
       operator := some .lt, threshold := some 4 },
     { source := "S", target := "F2",
       when_true_strength := some .suggests,
       when_false_strength := some .inconclusive,
       operator := some .gt, threshold := some 10 }]

/-- C10 counterexample: both failure modes are candidates and the sensor "S"
could help discriminate both, yet the output carries two records named "S"
(one per operator/threshold/strength signature), not exactly one record per
source name. -/
theorem recommendation_grouping_counterexample :
    "F1" ∈ candidates splitSensorGraph ["O"] ∧
      "F2" ∈ candidates splitSensorGraph ["O"] ∧
      ((get_test_recommendations splitSensorGraph ["O"]).filter
          (fun r => decide (r.name = "S"))).length = 2 := by decide

/-- C10 amended: every record's source is not among the current observations;
there is exactly one record per distinct (source, kind, operator, threshold,
when_true_strength) signature among the qualifying evidence edges — not per
source name — at most one because the record keys are pairwise distinct, and
at least one because every qualifying edge's signature is the key of some
record; each record's `would_help_with` is the set of distinct candidate
failure-mode names reached by edges with its signature; and the records are
sorted descending by the size of `would_help_with`. -/
theorem recommendation_grouping_amended (g : Graph) (observations : List String) :
    (∀ r ∈ get_test_recommendations g observations, r.name ∉ observations) ∧
      ((get_test_recommendations g observations).map keyOfRecommendation).Nodup ∧
      (∀ q ∈ recommendation_rows g observations,
        ∃ r ∈ get_test_recommendations g observations,
          keyOfRecommendation r = groupKey q) ∧
      (∀ r ∈ get_test_recommendations g observations,
        r.would_help_with =
          (((recommendation_rows g observations).filter
              (fun q => decide (groupKey q = keyOfRecommendation r))).map
            QualifiedEvidence.failure_mode).dedup) ∧
      List.Pairwise recommendLE (get_test_recommendations g observations) := by
  have hperm : List.Perm (get_test_recommendations g observations)
      (((recommendation_rows g observations).map groupKey).dedup.map
        (recommendation_for (recommendation_rows g observations))) :=
    List.perm_insertionSort _ _
  have hmem : ∀ r ∈ get_test_recommendations g observations,
      ∃ k ∈ ((recommendation_rows g observations).map groupKey).dedup,
        r = recommendation_for (recommendation_rows g observations) k := by
    intro r hr
    have := hperm.mem_iff.mp hr
    rw [List.mem_map] at this
    obtain ⟨k, hk, rfl⟩ := this
    exact ⟨k, hk, rfl⟩
  refine ⟨?_, ?_, ?_, ?_, ?_⟩
  · intro r hr
    obtain ⟨k, hk, rfl⟩ := hmem r hr
    rw [List.mem_dedup, List.mem_map] at hk
    obtain ⟨q, hq, rfl⟩ := hk
    rw [recommendation_rows, List.mem_filter] at hq
    have := hq.2
    simp only [decide_eq_true_eq] at this
    exact this.2
  · have hmap : (((recommendation_rows g observations).map groupKey).dedup.map
        (recommendation_for (recommendation_rows g observations))).map
          keyOfRecommendation =
        ((recommendation_rows g observations).map groupKey).dedup := by
      rw [List.map_map]
      exact List.map_id'' (fun k => rfl) _
    have := (hperm.map keyOfRecommendation).nodup_iff
    rw [hmap] at this
    exact this.mpr (List.nodup_dedup _)
  · intro q hq
    refine ⟨recommendation_for (recommendation_rows g observations) (groupKey q),
      hperm.mem_iff.mpr ?_, rfl⟩
    exact List.mem_map_of_mem _ (List.mem_dedup.mpr (List.mem_map_of_mem _ hq))
  · intro r hr
    obtain ⟨k, -, rfl⟩ := hmem r hr
    rfl
  · exact List.sorted_insertionSort recommendLE _

end Telltale
